import Mathlib

/-!
Verification of the crates-io-api asynchronous client (`src/async_client.rs`)
against its natural-language specification.

The development is a shallow embedding:

* The rate-gated transport (`Client::get`, async_client.rs lines 145-179) is
  modelled by `transportGet`, an explicit state-passing function over
  `RateState`.  Time is modelled by natural numbers; the tokio mutex that
  serializes requests is modelled by running the requests of one client (and
  its clones) sequentially (`runRequests`), which is exactly what holding the
  lock across the whole wait+send+classify section enforces.
* The typed endpoint operations (lines 181-397) are modelled as pure
  functions over a `ServerData` oracle fixing the decoded response of every
  endpoint; each operation also returns the list of HTTP requests it issues.
* `CrateStream::poll_next` (lines 45-96) is modelled by `pollNext`, a step
  function on the stream state, parameterised by the poll outcome of the
  in-flight page fetch.

The wire data model (`types.rs`) and the error type (`error.rs`) are not in
the source tree under verification; the spec treats them as external
collaborators.  They are modelled with the minimal fields the client code
touches, as documented on each declaration.
-/

/-- Modelled from the spec: the error taxonomy of `error.rs` (not in src/):
`NotFound(url)`, `PermissionDenied(reason)`, `Api(server-reported message)`,
and Transport-style failures; `http` models the unclassified non-2xx status
error produced by `error_for_status`, `transport` the network/decode
failures converted through `Error::from`. -/
inductive Error where
  | notFound (url : String)
  | permissionDenied (reason : String)
  | http (status : Nat)
  | transport (msg : String)
  | api (msg : String)
deriving DecidableEq, Repr

/-- Modelled from the spec: the tagged response envelope (`ApiResponse` in
`types.rs`, not in src/): a success payload XOR a domain-error payload. -/
inductive ApiResponse (T : Type) where
  | ok (t : T)
  | err (msg : String)
deriving DecidableEq, Repr

/-- Outcome of the network send inside `Client::get`: either the send fails
before any response is obtained (`res = self.client.get(..).send().await?`
returning early), or a response arrives carrying a status code, an optional
body text (read only in the 403 branch, where a failed read is replaced by
the empty string via `unwrap_or_default`), and the result of decoding the
body as the tagged envelope (consulted only in the 2xx branch). -/
inductive NetOutcome (T : Type) where
  | sendError (msg : String)
  | response (status : Nat) (bodyText : Option String)
      (decoded : Except String (ApiResponse T))

/-- The Rate Slot (the `tokio::sync::Mutex<Option<Instant>>` of the client)
together with the current instant.  `slot` holds the optional time of last
request, `now` is the current value of the monotonic clock. -/
structure RateState where
  now : Nat
  slot : Option Nat
deriving DecidableEq, Repr

/-- One execution of `Client::get` observed from outside: the returned
result, the rate state after the lock is released, the instant captured by
`let time = tokio::time::Instant::now()` just before the send, and the
instant at which classification completed. -/
structure GetTrace (T : Type) where
  result : Except Error T
  state : RateState
  sendTime : Nat
  completeTime : Nat

/-- Shallow embedding of `Client::get` (async_client.rs lines 145-179).
The steps, in source order:
1. `lock.take()` empties the slot while inspecting the previous timestamp;
   if less than `rate_limit` has elapsed since it, sleep for the remainder.
2. `let time = Instant::now()` captures the post-wait instant.
3. The send either fails before a response (early return through `?`, with
   the slot left as `take()` left it: empty) or yields a response after
   `duration` time units.
4. A response is classified: 404, then 403, then any other non-success
   status, then the 2xx envelope decode.
5. `(*lock) = Some(time)` records the pre-send instant, and the envelope is
   unwrapped (`ApiResponse::Err` becoming `Error::Api`). -/
def transportGet (T : Type) (rateLimit : Nat) (url : String) (duration : Nat)
    (outcome : NetOutcome T) (st : RateState) : GetTrace T :=
  let afterWait : Nat :=
    match st.slot with
    | some t =>
        if st.now - t < rateLimit then st.now + (rateLimit - (st.now - t)) else st.now
    | none => st.now
  let time := afterWait
  match outcome with
  | .sendError msg =>
      { result := .error (.transport msg)
        state := { now := afterWait + duration, slot := none }
        sendTime := time
        completeTime := afterWait + duration }
  | .response status bodyText decoded =>
      let arrive := afterWait + duration
      let classified : Except Error (ApiResponse T) :=
        if status = 404 then .error (.notFound url)
        else if status = 403 then .error (.permissionDenied (bodyText.getD ""))
        else if 200 ≤ status ∧ status < 300 then
          match decoded with
          | .ok env => .ok env
          | .error msg => .error (.transport msg)
        else .error (.http status)
      { result :=
          match classified with
          | .error e => .error e
          | .ok (.ok t) => .ok t
          | .ok (.err msg) => .error (.api msg)
        state := { now := arrive, slot := some time }
        sendTime := time
        completeTime := arrive }

/-- Specification of one request in a sequence: an optional idle delay of
the caller before issuing it, the URL, how long the network call takes, and
its network outcome. -/
structure SendSpec (T : Type) where
  preDelay : Nat
  url : String
  duration : Nat
  outcome : NetOutcome T

/-- Whether the network outcome carried an actual response. -/
def NetOutcome.isResponse {T : Type} : NetOutcome T → Bool
  | .sendError _ => false
  | .response _ _ _ => true

/-- A sequence of `Client::get` calls on one client (or its clones): the
shared mutex serializes them, so they execute back to back, each starting
from the rate state the previous one left behind. -/
def runRequests (T : Type) (rateLimit : Nat) :
    RateState → List (SendSpec T) → List (GetTrace T)
  | _, [] => []
  | st, spec :: rest =>
      let g := transportGet T rateLimit spec.url spec.duration spec.outcome
        { st with now := st.now + spec.preDelay }
      g :: runRequests T rateLimit g.state rest

/-- Helper: a response-bearing `transportGet` stores the pre-send instant in
the slot. -/
theorem transportGet_response_slot (T : Type) (rl : Nat) (url : String) (d : Nat)
    (status : Nat) (bodyText : Option String) (decoded : Except String (ApiResponse T))
    (st : RateState) :
    (transportGet T rl url d (.response status bodyText decoded) st).state.slot =
      some (transportGet T rl url d (.response status bodyText decoded) st).sendTime := rfl

/-- Helper: the recorded send instant never exceeds the final clock value. -/
theorem transportGet_sendTime_le (T : Type) (rl : Nat) (url : String) (d : Nat)
    (o : NetOutcome T) (st : RateState) :
    (transportGet T rl url d o st).sendTime ≤ (transportGet T rl url d o st).state.now := by
  cases o <;> simp [transportGet]

/-- Helper: if the slot holds a past instant `t`, the wait guarantees that
the send instant is at least `t + rateLimit`. -/
theorem transportGet_send_spaced (T : Type) (rl : Nat) (url : String) (d : Nat)
    (o : NetOutcome T) (st : RateState) (t : Nat) (hslot : st.slot = some t)
    (hle : t ≤ st.now) :
    t + rl ≤ (transportGet T rl url d o st).sendTime := by
  cases o <;> simp [transportGet, hslot] <;> split_ifs <;> omega

/-- Helper: the slot after a sequence of response-bearing requests records
each request's pre-send instant. -/
theorem runRequests_slot (T : Type) (rl : Nat) :
    ∀ (specs : List (SendSpec T)) (st : RateState),
      (∀ s ∈ specs, s.outcome.isResponse = true) →
      ∀ g ∈ runRequests T rl st specs, g.state.slot = some g.sendTime := by
  intro specs
  induction specs with
  | nil => intro st _ g hg; simp [runRequests] at hg
  | cons spec rest ih =>
    intro st hresp g hg
    have hhead : spec.outcome.isResponse = true := hresp spec (by simp)
    rw [runRequests] at hg
    rcases List.mem_cons.mp hg with h | h
    · subst h
      cases ho : spec.outcome with
      | sendError msg => rw [ho] at hhead; simp [NetOutcome.isResponse] at hhead
      | response status bodyText decoded =>
        exact transportGet_response_slot T rl spec.url spec.duration status bodyText decoded _
    · exact ih _ (fun s hs => hresp s (List.mem_cons_of_mem _ hs)) g h

/-- Helper: chain of send instants, anchored at a recorded past instant. -/
theorem runRequests_chain (T : Type) (rl : Nat) :
    ∀ (specs : List (SendSpec T)) (st : RateState) (t : Nat),
      st.slot = some t → t ≤ st.now →
      (∀ s ∈ specs, s.outcome.isResponse = true) →
      List.Chain (fun a b => a + rl ≤ b) t
        ((runRequests T rl st specs).map (fun g => g.sendTime)) := by
  intro specs
  induction specs with
  | nil => intro st t _ _ _; simp [runRequests]
  | cons spec rest ih =>
    intro st t hslot hle hresp
    rw [runRequests]
    simp only [List.map_cons]
    set st' : RateState := { st with now := st.now + spec.preDelay } with hst'
    have hslot' : st'.slot = some t := hslot
    have hle' : t ≤ st'.now := by simp [hst']; omega
    set g := transportGet T rl spec.url spec.duration spec.outcome st' with hg
    refine List.Chain.cons ?_ ?_
    · exact transportGet_send_spaced T rl spec.url spec.duration spec.outcome st' t hslot' hle'
    · cases ho : spec.outcome with
      | sendError msg =>
        have := hresp spec (by simp)
        rw [ho] at this; simp [NetOutcome.isResponse] at this
      | response status bodyText decoded =>
        refine ih g.state g.sendTime ?_ ?_ (fun s hs => hresp s (List.mem_cons_of_mem _ hs))
        · rw [hg, ho]; exact transportGet_response_slot T rl _ _ _ _ _ _
        · exact transportGet_sendTime_le T rl spec.url spec.duration spec.outcome st'

/-- C5: for every obtained HTTP response, `Client::get` maps the status code
exactly as specified: 404 yields `NotFound` carrying the requested URL, 403
yields `PermissionDenied` carrying the raw body text as reason, any other
non-2xx yields the generic status error, and a 2xx body is decoded as the
tagged envelope, with an error-tagged envelope surfaced as an `Api` error
and a success payload returned decoded. -/
theorem C5_status_mapping (T : Type) (rl : Nat) (url : String) (d : Nat)
    (status : Nat) (bodyText : Option String) (decoded : Except String (ApiResponse T))
    (st : RateState) :
    (transportGet T rl url d (.response status bodyText decoded) st).result =
      if status = 404 then .error (.notFound url)
      else if status = 403 then .error (.permissionDenied (bodyText.getD ""))
      else if 200 ≤ status ∧ status < 300 then
        match decoded with
        | .ok (.ok t) => .ok t
        | .ok (.err msg) => .error (.api msg)
        | .error msg => .error (.transport msg)
      else .error (.http status) := by
  cases decoded with
  | ok env => cases env <;> (simp only [transportGet]; split_ifs <;> rfl)
  | error msg => simp only [transportGet]; split_ifs <;> rfl

/-- C2 counterexample: with a prior timestamp 5 in the Rate Slot, a
pre-response send failure does NOT leave the Rate Slot timestamp unchanged:
the prior timestamp was consumed by `lock.take()` during the wait check and
is not restored, so the slot is left empty afterwards. -/
theorem C2_cex :
    (transportGet Nat 10 "u" 3 (.sendError "io") { now := 100, slot := some 5 }).state.slot
        = none ∧
    (transportGet Nat 10 "u" 3 (.sendError "io") { now := 100, slot := some 5 }).state.slot
        ≠ some 5 := by
  constructor <;> decide

/-- C2 (amended): a pre-response send failure is propagated as a transport
error and never advances the Rate Slot to a new timestamp — the slot is
left EMPTY (not unchanged), because `lock.take()` consumed the previous
timestamp during the wait check and the failure path does not restore it;
every response-bearing outcome (404, 403, other non-2xx, or 2xx with either
envelope variant) updates the slot before the lock is released, to the
instant captured after the wait and immediately before the send. -/
theorem C2_slot_update (T : Type) (rl : Nat) (url : String) (d : Nat) (st : RateState) :
    (∀ msg,
      (transportGet T rl url d (.sendError msg) st).result =
          .error (.transport msg) ∧
      (transportGet T rl url d (.sendError msg) st).state.slot = none) ∧
    (∀ status bodyText decoded,
      (transportGet T rl url d (.response status bodyText decoded) st).state.slot =
        some (transportGet T rl url d (.response status bodyText decoded) st).sendTime) := by
  constructor
  · intro msg; exact ⟨rfl, rfl⟩
  · intro status bodyText decoded; rfl

/-- Concrete two-request run used for the C3 counterexample: rate limit 10,
first request takes 25 time units, second takes 0. -/
def c3run : List (GetTrace Nat) :=
  runRequests Nat 10 { now := 0, slot := none }
    [ { preDelay := 0, url := "u", duration := 25,
        outcome := .response 200 none (.ok (.ok 1)) },
      { preDelay := 0, url := "u", duration := 0,
        outcome := .response 200 none (.ok (.ok 2)) } ]

/-- C3 counterexample: in `c3run` both requests complete at instant 25, so
consecutive completion timestamps differ by 0, less than the configured
minimum interval 10; and the value the first request records into the Rate
Slot is its pre-send instant 0, not the instant 25 at which its
classification completed. -/
theorem C3_cex :
    c3run.map (fun g => g.completeTime) = [25, 25] ∧
    ¬ (10 ≤ 25 - 25) ∧
    c3run.map (fun g => g.state.slot) = [some 0, some 25] ∧
    (0 : Nat) ≠ 25 := by
  refine ⟨?_, by decide, ?_, by decide⟩ <;> rfl

/-- C3 (amended): what `Client::get` records into the Rate Slot is the
instant captured after the rate-limit wait and immediately BEFORE the send
(`let time = Instant::now()` precedes `send()`), not the time at which
classification completed; consequently the spacing guarantee holds for the
post-wait SEND instants, not for the completion instants: for any sequence
of requests issued on one client (fresh slot) in which every request
obtains a response, consecutive send instants differ by at least the
configured minimum interval. -/
theorem C3_send_spacing (T : Type) (rl : Nat) (st : RateState)
    (specs : List (SendSpec T)) (_hfresh : st.slot = none)
    (hresp : ∀ s ∈ specs, s.outcome.isResponse = true) :
    List.Chain' (fun a b => a + rl ≤ b)
      ((runRequests T rl st specs).map (fun g => g.sendTime)) ∧
    ∀ g ∈ runRequests T rl st specs, g.state.slot = some g.sendTime := by
  refine ⟨?_, runRequests_slot T rl specs st hresp⟩
  cases specs with
  | nil => simp [runRequests]
  | cons spec rest =>
    rw [runRequests]
    simp only [List.map_cons]
    set st' : RateState := { st with now := st.now + spec.preDelay } with hst'
    set g := transportGet T rl spec.url spec.duration spec.outcome st' with hg
    show List.Chain (fun a b => a + rl ≤ b) g.sendTime
      ((runRequests T rl g.state rest).map (fun x => x.sendTime))
    cases ho : spec.outcome with
    | sendError msg =>
      have := hresp spec (by simp)
      rw [ho] at this; simp [NetOutcome.isResponse] at this
    | response status bodyText decoded =>
      refine runRequests_chain T rl rest g.state g.sendTime ?_ ?_
        (fun s hs => hresp s (List.mem_cons_of_mem _ hs))
      · rw [hg, ho]; exact transportGet_response_slot T rl _ _ _ _ _ _
      · exact transportGet_sendTime_le T rl spec.url spec.duration spec.outcome st'

/-- Witness for C3 (amended) at a concrete two-request run. -/
theorem C3_send_spacing_witness :
    List.Chain' (fun a b => a + 10 ≤ b)
      ((runRequests Nat 10 { now := 0, slot := none }
        [ { preDelay := 0, url := "u", duration := 2,
            outcome := .response 200 none (.ok (.ok 1)) },
          { preDelay := 0, url := "u", duration := 3,
            outcome := .response 404 none (.ok (.ok 2)) } ]).map (fun g => g.sendTime)) ∧
    ∀ g ∈ runRequests Nat 10 { now := 0, slot := none }
        [ { preDelay := 0, url := "u", duration := 2,
            outcome := .response 200 none (.ok (.ok 1)) },
          { preDelay := 0, url := "u", duration := 3,
            outcome := .response 404 none (.ok (.ok 2)) } ],
      g.state.slot = some g.sendTime :=
  C3_send_spacing Nat 10 { now := 0, slot := none } _ rfl (by decide)

/-- Modelled from the spec: wire data for one crate version (`types.rs`, not
in src/), reduced to the fields `async_client.rs` reads: the owning crate's
name and the version string used to build the authors/dependencies URLs,
and the license copied into the composite views. -/
structure Version where
  crate_name : String
  num : String
  license : String
deriving DecidableEq, Repr

/-- Modelled from the spec: the base-crate payload fields read by the
client. -/
structure CrateData where
  name : String
deriving DecidableEq, Repr

/-- Modelled from the spec: the response of the base crate lookup, which
enumerates the crate's versions. -/
structure CrateResponse where
  crate_data : CrateData
  versions : List Version
deriving DecidableEq, Repr

/-- Modelled from the spec: a detailed version record as assembled by
`full_version`, keeping the fields the composition step actually writes
from its two sub-fetches plus the base version data it copies. -/
structure FullVersion where
  num : String
  license : String
  author_names : List String
  dependencies : List String
deriving DecidableEq, Repr

/-- Modelled from the spec: pagination metadata with the running total. -/
structure Meta where
  total : Nat
deriving DecidableEq, Repr

/-- Modelled from the spec: the flat reverse-dependency collection returned
to callers (items plus authoritative total). -/
structure ReverseDependencies where
  dependencies : List String
  meta : Meta
deriving DecidableEq, Repr

/-- Modelled from the spec: one reverse-dependency page as received from
the server (`ReverseDependenciesAsReceived` in `types.rs`, not in src/). -/
structure ReverseDependenciesAsReceived where
  dependencies : List String
  meta : Meta
deriving DecidableEq, Repr

/-- Modelled from the spec: `ReverseDependencies::extend` lives in
`types.rs` (not in src/); per the spec the received page's items are
appended to the accumulator in order. -/
def ReverseDependencies.extendReceived (d : ReverseDependencies)
    (p : ReverseDependenciesAsReceived) : ReverseDependencies :=
  { d with dependencies := d.dependencies ++ p.dependencies }

/-- Modelled from the spec: the `Owners` wrapper whose `users` field
`crate_owners` projects out. -/
structure Owners where
  users : List String
deriving DecidableEq, Repr

/-- Modelled from the spec: the `AuthorsResponse` wrapper whose
`meta.names` field `crate_authors` projects out. -/
structure AuthorsMeta where
  names : List String
deriving DecidableEq, Repr

structure AuthorsResponse where
  meta : AuthorsMeta
deriving DecidableEq, Repr

/-- Modelled from the spec: the `Dependencies` wrapper whose `dependencies`
field `crate_dependencies` projects out. -/
structure Dependencies where
  dependencies : List String
deriving DecidableEq, Repr

/-- The composite crate view assembled by `full_crate`, reduced to the
fields whose provenance the claims inspect. -/
structure FullCrate where
  name : String
  license : String
  downloads : Nat
  owners : List String
  reverse_dependencies : ReverseDependencies
  versions : List FullVersion
deriving DecidableEq, Repr

/-- One HTTP GET request issued by the client, identified by endpoint and
query parameters (standing for the URL the source builds by `format!`;
`reverseDeps name perPage page` stands for
`crates/{name}/reverse_dependencies?per_page={perPage}&page={page}`). -/
inductive Request where
  | getCrate (name : String)
  | downloads (name : String)
  | owners (name : String)
  | reverseDeps (name : String) (perPage : Nat) (page : Nat)
  | authors (name : String) (version : String)
  | dependencies (name : String) (version : String)
  | crates (page : Nat)
deriving DecidableEq, Repr

/-- The remote service as seen through the decoder: for every endpoint,
the decoded outcome `Client::get::<T>` would produce for it.  This is the
oracle the endpoint operations run against. -/
structure ServerData where
  crateResp : String → Except Error CrateResponse
  downloadsResp : String → Except Error Nat
  ownersResp : String → Except Error Owners
  authorsResp : String → String → Except Error AuthorsResponse
  depsResp : String → String → Except Error Dependencies
  revDepsResp : String → Nat → Except Error ReverseDependenciesAsReceived

/-- `Client::get_crate` (lines 190-193): one request to `crates/{name}`. -/
def get_crate (srv : ServerData) (name : String) :
    Except Error CrateResponse × List Request :=
  (srv.crateResp name, [.getCrate name])

/-- `Client::crate_downloads` (lines 196-202): one request to
`crates/{name}/downloads`. -/
def crate_downloads (srv : ServerData) (name : String) :
    Except Error Nat × List Request :=
  (srv.downloadsResp name, [.downloads name])

/-- `Client::crate_owners` (lines 205-211): one request to
`crates/{name}/owners`, projecting the `users` field. -/
def crate_owners (srv : ServerData) (name : String) :
    Except Error (List String) × List Request :=
  ((srv.ownersResp name).map (fun o => o.users), [.owners name])

/-- `Client::crate_authors` (lines 278-286): one request to
`crates/{name}/{version}/authors`, projecting `meta.names`. -/
def crate_authors (srv : ServerData) (name : String) (version : String) :
    Except Error (List String) × List Request :=
  ((srv.authorsResp name version).map (fun r => r.meta.names),
   [.authors name version])

/-- `Client::crate_dependencies` (lines 289-301): one request to
`crates/{name}/{version}/dependencies`, projecting `dependencies`. -/
def crate_dependencies (srv : ServerData) (name : String) (version : String) :
    Except Error (List String) × List Request :=
  ((srv.depsResp name version).map (fun r => r.dependencies),
   [.dependencies name version])

/-- `Client::crate_reverse_dependencies_page` (lines 216-241): clamp the
page number to at least 1 (`let page = page.max(1)`), issue one request
with fixed `per_page=100`, then rebuild a `ReverseDependencies` value whose
total is the received page's total and whose items are the received items. -/
def crate_reverse_dependencies_page (srv : ServerData) (crate_name : String)
    (page : Nat) : Except Error ReverseDependencies × List Request :=
  let page := max page 1
  match srv.revDepsResp crate_name page with
  | .error e => (.error e, [.reverseDeps crate_name 100 page])
  | .ok received =>
      let deps : ReverseDependencies :=
        { dependencies := [], meta := { total := 0 } }
      let deps := { deps with meta := { total := received.meta.total } }
      (.ok (deps.extendReceived received), [.reverseDeps crate_name 100 page])

/-- The loop body of `Client::crate_reverse_dependencies` (lines 257-266):
`for page_number in 1.. { ... }`.  Each iteration fetches one page; an
error propagates through `?`; an empty page breaks out returning the
accumulator (whose total was NOT updated from that empty page); a nonempty
page is appended and the running total replaced by that page's total.  The
source loop has no iteration bound, so the embedding is fuelled: `none`
means the fuel ran out, i.e. the source loop is still running after that
many iterations. -/
def revDepsLoop (srv : ServerData) (crate_name : String) :
    Nat → Nat → ReverseDependencies →
      Option (Except Error ReverseDependencies × List Request)
  | 0, _, _ => none
  | fuel + 1, pageNum, acc =>
    match crate_reverse_dependencies_page srv crate_name pageNum with
    | (.error e, log) => some (.error e, log)
    | (.ok page, log) =>
      if page.dependencies.isEmpty then some (.ok acc, log)
      else
        (revDepsLoop srv crate_name fuel (pageNum + 1)
            { dependencies := acc.dependencies ++ page.dependencies
              meta := { total := page.meta.total } }).map
          (fun r => (r.1, log ++ r.2))

/-- `Client::crate_reverse_dependencies` (lines 248-269): full accumulation
starting from page 1 with an empty accumulator and total 0. -/
def crate_reverse_dependencies (srv : ServerData) (crate_name : String)
    (fuel : Nat) : Option (Except Error ReverseDependencies × List Request) :=
  revDepsLoop srv crate_name fuel 1 { dependencies := [], meta := { total := 0 } }

/-- The `try_join!` of two results: the macro completes with the error of
the first (in poll order) failing member, and only pairs the values when
both succeed. -/
def tryJoin2 (A B : Type) (a : Except Error A) (b : Except Error B) :
    Except Error (A × B) :=
  match a with
  | .error e => .error e
  | .ok av =>
    match b with
    | .error e => .error e
    | .ok bv => .ok (av, bv)

/-- `futures::future::try_join_all`: all values, or the first error. -/
def tryJoinAll (A : Type) : List (Except Error A) → Except Error (List A)
  | [] => .ok []
  | x :: xs =>
    match x with
    | .error e => .error e
    | .ok v => (tryJoinAll A xs).map (fun l => v :: l)

/-- `Client::full_version` (lines 303-323): authors and dependencies are
dispatched for the version's crate name and number, joined fail-fast, and
on success merged with the base version data into a `FullVersion`. -/
def full_version (srv : ServerData) (version : Version) :
    Except Error FullVersion × List Request :=
  let authors := crate_authors srv version.crate_name version.num
  let deps := crate_dependencies srv version.crate_name version.num
  ((tryJoin2 (List String) (List String) authors.1 deps.1).map
      (fun p =>
        { num := version.num
          license := version.license
          author_names := p.1
          dependencies := p.2 }),
   authors.2 ++ deps.2)

/-- Observable outcome of a `full_crate` call: a returned result together
with the requests issued, a panic (an out-of-bounds `versions[0]` index),
or a hang (the reverse-dependency loop never terminates within the given
fuel). -/
inductive RunOutcome (α : Type) where
  | returns (r : Except Error α) (log : List Request)
  | panics (log : List Request)
  | hangs
deriving Repr

def resultOf (α : Type) : RunOutcome α → Option (Except Error α)
  | .returns r _ => some r
  | _ => none

def requestsOf (α : Type) : RunOutcome α → Option (List Request)
  | .returns _ log => some log
  | _ => none

/-- The version-detail stage of `Client::full_crate` (lines 335-348): if
`all_versions` is false, `full_version` runs once on `krate.versions[0]` —
panicking when the versions list is empty — and wraps the result in a
one-element vector; otherwise `full_version` runs across every version and
the results are joined fail-fast by `try_join_all`. -/
def versionsStage (srv : ServerData) (krate : CrateResponse)
    (all_versions : Bool) (log0 : List Request) : RunOutcome (List FullVersion) :=
  if all_versions = false then
    match krate.versions with
    | [] => .panics log0
    | v :: _ =>
      let fr := full_version srv v
      .returns (fr.1.map (fun fv => [fv])) (log0 ++ fr.2)
  else
    let rs := krate.versions.map (fun v => full_version srv v)
    .returns (tryJoinAll FullVersion (rs.map Prod.fst))
      (log0 ++ (rs.map Prod.snd).flatten)

/-- The crate-level join of `Client::full_crate` (lines 349-376):
downloads, owners and the full reverse-dependency accumulation are joined
by `try_join!` — the first failing member (in poll order: downloads, then
owners, then reverse dependencies) becomes the overall result, even when a
later member would hang; only when all three succeed does the composition
closure run, reading `krate.versions[0].license` — a panic when the
versions list is empty. -/
def joinStage (srv : ServerData) (name : String) (krate : CrateResponse)
    (versions : List FullVersion) (logv : List Request) (fuel : Nat) :
    RunOutcome FullCrate :=
  let dls := crate_downloads srv name
  let owners := crate_owners srv name
  let rd := crate_reverse_dependencies srv name fuel
  let logR := match rd with
    | some r => r.2
    | none => []
  let fullLog := logv ++ dls.2 ++ owners.2 ++ logR
  match dls.1 with
    | .error e => .returns (.error e) fullLog
    | .ok dlsv =>
      match owners.1 with
      | .error e => .returns (.error e) fullLog
      | .ok ownersv =>
        match rd with
        | none => .hangs
        | some (.error e, _) => .returns (.error e) fullLog
        | some (.ok rdv, _) =>
          match krate.versions with
          | [] => .panics fullLog
          | v0 :: _ =>
            .returns (.ok
              { name := krate.crate_data.name
                license := v0.license
                downloads := dlsv
                owners := ownersv
                reverse_dependencies := rdv
                versions := versions }) fullLog

/-- `Client::full_crate` (lines 333-376): base crate lookup, then the
version-detail stage, then the three-way crate-level join. -/
def full_crate (srv : ServerData) (name : String) (all_versions : Bool)
    (fuel : Nat) : RunOutcome FullCrate :=
  let base := get_crate srv name
  match base.1 with
  | .error e => .returns (.error e) base.2
  | .ok krate =>
    match versionsStage srv krate all_versions base.2 with
    | .panics l => .panics l
    | .hangs => .hangs
    | .returns (.error e) logv => .returns (.error e) logv
    | .returns (.ok versions) logv => joinStage srv name krate versions logv fuel

/-- The single version served by `demoServer`. -/
def demoVersion : Version :=
  { crate_name := "serde", num := "1.0.0", license := "MIT" }

/-- A concrete well-behaved server: one crate version, one owner, one
author, one dependency, and exactly one nonempty reverse-dependency page
followed by an empty one. -/
def demoServer : ServerData :=
  { crateResp := fun n => .ok
      { crate_data := { name := n }
        versions := [{ crate_name := n, num := "1.0.0", license := "MIT" }] }
    downloadsResp := fun _ => .ok 7
    ownersResp := fun _ => .ok { users := ["alice"] }
    authorsResp := fun _ _ => .ok { meta := { names := ["alice"] } }
    depsResp := fun _ _ => .ok { dependencies := ["serde"] }
    revDepsResp := fun _ p =>
      if p = 1 then .ok { dependencies := ["tokio"], meta := { total := 1 } }
      else .ok { dependencies := [], meta := { total := 1 } } }

/-- C9: `crate_reverse_dependencies_page` silently clamps every page
argument below 1 up to 1 and never rejects it: calling it with page 0 (the
only natural number below 1) behaves identically to calling it with
page 1, for every server and crate name. -/
theorem C9_page_clamped (srv : ServerData) (crate_name : String) :
    crate_reverse_dependencies_page srv crate_name 0 =
      crate_reverse_dependencies_page srv crate_name 1 ∧
    ∀ p : Nat, p < 1 →
      crate_reverse_dependencies_page srv crate_name p =
        crate_reverse_dependencies_page srv crate_name 1 := by
  refine ⟨rfl, ?_⟩
  intro p hp
  interval_cases p
  rfl

/-- Witness for C9 at a concrete server and crate name. -/
theorem C9_page_clamped_witness :
    crate_reverse_dependencies_page demoServer "serde" 0 =
      crate_reverse_dependencies_page demoServer "serde" 1 :=
  (C9_page_clamped demoServer "serde").2 0 (by decide)

/-- Helper: a page fetch against a server that answers `.ok r` for a page
number that is already ≥ 1. -/
theorem crate_reverse_dependencies_page_ok (srv : ServerData) (crate_name : String)
    (p : Nat) (r : ReverseDependenciesAsReceived) (hp : 1 ≤ p)
    (h : srv.revDepsResp crate_name p = .ok r) :
    crate_reverse_dependencies_page srv crate_name p =
      (.ok { dependencies := r.dependencies, meta := { total := r.meta.total } },
       [.reverseDeps crate_name 100 p]) := by
  unfold crate_reverse_dependencies_page
  rw [Nat.max_eq_left hp]
  simp [h, ReverseDependencies.extendReceived]

/-- Helper: a page fetch propagates a server error for a page number ≥ 1. -/
theorem crate_reverse_dependencies_page_err (srv : ServerData) (crate_name : String)
    (p : Nat) (e : Error) (hp : 1 ≤ p)
    (h : srv.revDepsResp crate_name p = .error e) :
    crate_reverse_dependencies_page srv crate_name p =
      (.error e, [.reverseDeps crate_name 100 p]) := by
  unfold crate_reverse_dependencies_page
  rw [Nat.max_eq_left hp]
  simp [h]

/-- Helper: full characterisation of the accumulation loop on a server
whose first empty reverse-dependency page is page `k`: starting from page
`p ≤ k` with accumulator `acc` and enough fuel, the loop requests exactly
pages `p..k` in order with page size 100, returns the accumulator extended
by the items of the nonempty pages `p..k-1` in page order, and leaves the
total at the last NONEMPTY page's total (the accumulator's own total when
it starts on the empty page). -/
theorem revDepsLoop_spec (srv : ServerData) (crate_name : String)
    (pg : Nat → ReverseDependenciesAsReceived) (k : Nat)
    (hpages : ∀ i, 1 ≤ i → i < k →
      srv.revDepsResp crate_name i = .ok (pg i) ∧ (pg i).dependencies ≠ [])
    (hend : srv.revDepsResp crate_name k = .ok (pg k))
    (hkE : (pg k).dependencies = []) :
    ∀ fuel p acc, 1 ≤ p → p ≤ k → k - p < fuel →
      revDepsLoop srv crate_name fuel p acc =
        some (.ok
          { dependencies := acc.dependencies ++
              ((List.range' p (k - p)).map (fun i => (pg i).dependencies)).flatten
            meta := { total := if p = k then acc.meta.total
                               else (pg (k - 1)).meta.total } },
          (List.range' p (k - p + 1)).map
            (fun i => Request.reverseDeps crate_name 100 i)) := by
  intro fuel
  induction fuel with
  | zero => intro p acc _ _ h3; omega
  | succ fuel ih =>
    intro p acc hp1 hpk hfuel
    by_cases hpk' : p = k
    · subst hpk'
      rw [revDepsLoop,
        crate_reverse_dependencies_page_ok srv crate_name p (pg p) hp1 hend]
      simp [hkE]
    · have hplt : p < k := lt_of_le_of_ne hpk hpk'
      obtain ⟨hsrv, hne⟩ := hpages p hp1 hplt
      rw [revDepsLoop,
        crate_reverse_dependencies_page_ok srv crate_name p (pg p) hp1 hsrv]
      have hEmpty : ((pg p).dependencies).isEmpty = false := by
        cases h : (pg p).dependencies with
        | nil => exact absurd h hne
        | cons a l => rfl
      simp only [hEmpty, Bool.false_eq_true, if_false]
      rw [ih (p + 1)
        { dependencies := acc.dependencies ++ (pg p).dependencies
          meta := { total := (pg p).meta.total } }
        (by omega) (by omega) (by omega)]
      simp only [Option.map]
      have hr1 : k - p = (k - (p + 1)) + 1 := by omega
      rw [hr1, List.range'_succ p (k - (p + 1)) 1,
        List.range'_succ p (k - (p + 1) + 1) 1]
      by_cases hk1 : p + 1 = k
      · have hp' : p = k - 1 := by omega
        simp [hk1, hpk', hp']
        rw [if_neg (by omega)]
      · simp [hk1, hpk', List.append_assoc]

/-- Helper: on a server that never returns an empty page, the loop never
terminates, whatever the fuel. -/
theorem revDepsLoop_diverges (srv : ServerData) (crate_name : String)
    (pg : Nat → ReverseDependenciesAsReceived)
    (hall : ∀ p, 1 ≤ p →
      srv.revDepsResp crate_name p = .ok (pg p) ∧ (pg p).dependencies ≠ []) :
    ∀ fuel p acc, 1 ≤ p → revDepsLoop srv crate_name fuel p acc = none := by
  intro fuel
  induction fuel with
  | zero => intro p acc _; rfl
  | succ fuel ih =>
    intro p acc hp
    obtain ⟨hsrv, hne⟩ := hall p hp
    rw [revDepsLoop,
      crate_reverse_dependencies_page_ok srv crate_name p (pg p) hp hsrv]
    have hEmpty : ((pg p).dependencies).isEmpty = false := by
      cases h : (pg p).dependencies with
      | nil => exact absurd h hne
      | cons a l => rfl
    simp only [hEmpty, Bool.false_eq_true, if_false]
    rw [ih (p + 1) _ (by omega)]
    rfl

/-- C7 (amended): on a server whose first empty reverse-dependency page is
page `k ≥ 1`, `crate_reverse_dependencies` requests exactly pages 1..k in
order with fixed page size 100 (k requests), returns the concatenation of
the nonempty pages' items in page order, and reports a total equal to the
last NONEMPTY page's total field — 0 when the very first page is empty —
not the (empty) last page's total; and on a server that never returns an
empty page the loop never stops, whatever the fuel. -/
theorem C7_rev_dep_accumulation (srv : ServerData) (crate_name : String)
    (pg : Nat → ReverseDependenciesAsReceived) (k fuel : Nat)
    (hk : 1 ≤ k) (hfuel : k ≤ fuel)
    (hpages : ∀ i, 1 ≤ i → i < k →
      srv.revDepsResp crate_name i = .ok (pg i) ∧ (pg i).dependencies ≠ [])
    (hend : srv.revDepsResp crate_name k = .ok (pg k))
    (hkE : (pg k).dependencies = []) :
    crate_reverse_dependencies srv crate_name fuel =
      some (.ok
        { dependencies :=
            ((List.range' 1 (k - 1)).map (fun i => (pg i).dependencies)).flatten
          meta := { total := if k = 1 then 0 else (pg (k - 1)).meta.total } },
        (List.range' 1 k).map (fun i => Request.reverseDeps crate_name 100 i)) ∧
    (∀ (srv2 : ServerData) (pg2 : Nat → ReverseDependenciesAsReceived),
      (∀ p, 1 ≤ p →
        srv2.revDepsResp crate_name p = .ok (pg2 p) ∧ (pg2 p).dependencies ≠ []) →
      ∀ fuel2, crate_reverse_dependencies srv2 crate_name fuel2 = none) := by
  constructor
  · rw [crate_reverse_dependencies,
      revDepsLoop_spec srv crate_name pg k hpages hend hkE fuel 1
        { dependencies := [], meta := { total := 0 } } (by omega) hk (by omega)]
    have h1 : k - 1 + 1 = k := by omega
    rw [h1]
    by_cases hk1 : 1 = k
    · simp [← hk1]
    · simp [hk1]
      rw [if_neg (by omega)]
  · intro srv2 pg2 hall fuel2
    exact revDepsLoop_diverges srv2 crate_name pg2 hall fuel2 1 _ (by omega)

/-- A server whose first reverse-dependency page is already empty but
reports a total of 42 in that page's metadata. -/
def c7server : ServerData :=
  { demoServer with
    revDepsResp := fun _ _ => .ok { dependencies := [], meta := { total := 42 } } }

/-- C7 counterexample: on `c7server` the first fetched page is the empty
page and its total field is 42, yet `crate_reverse_dependencies` reports
total 0 — the total is NOT taken from the last page (the empty one), since
the loop breaks before updating it. -/
theorem C7_cex :
    crate_reverse_dependencies c7server "left-pad" 5 =
      some (.ok { dependencies := [], meta := { total := 0 } },
        [Request.reverseDeps "left-pad" 100 1]) ∧
    (42 : Nat) ≠ 0 := by
  constructor
  · rfl
  · decide

/-- Witness for C7 (amended) at a concrete server (one nonempty page, then
an empty one). -/
theorem C7_rev_dep_accumulation_witness :
    crate_reverse_dependencies demoServer "serde" 2 =
      some (.ok { dependencies := ["tokio"], meta := { total := 1 } },
        [Request.reverseDeps "serde" 100 1, Request.reverseDeps "serde" 100 2]) := by
  have h := C7_rev_dep_accumulation demoServer "serde"
    (fun p => if p = 1 then { dependencies := ["tokio"], meta := { total := 1 } }
              else { dependencies := [], meta := { total := 1 } })
    2 2 (by omega) (by omega)
    (by intro i h1 h2
        have : i = 1 := by omega
        subst this
        constructor <;> simp [demoServer])
    (by simp [demoServer]) (by simp)
  rw [h.1]
  rfl

/-- Helper: `full_version` always issues exactly its two requests, in
order: authors, then dependencies. -/
theorem full_version_log (srv : ServerData) (v : Version) :
    (full_version srv v).2 =
      [Request.authors v.crate_name v.num, Request.dependencies v.crate_name v.num] := rfl

/-- Helper: `full_version` succeeds when both sub-fetches succeed. -/
theorem full_version_ok (srv : ServerData) (v : Version)
    (ha : ∃ a, srv.authorsResp v.crate_name v.num = .ok a)
    (hd : ∃ d, srv.depsResp v.crate_name v.num = .ok d) :
    ∃ fv, (full_version srv v).1 = .ok fv := by
  obtain ⟨a, ha⟩ := ha
  obtain ⟨d, hd⟩ := hd
  refine ⟨{ num := v.num, license := v.license,
            author_names := a.meta.names, dependencies := d.dependencies }, ?_⟩
  simp [full_version, crate_authors, crate_dependencies, ha, hd, tryJoin2, Except.map]

/-- Helper: `try_join_all` succeeds when every member succeeds. -/
theorem tryJoinAll_ok (A : Type) :
    ∀ rs : List (Except Error A), (∀ r ∈ rs, ∃ x, r = .ok x) →
      ∃ l, tryJoinAll A rs = .ok l := by
  intro rs
  induction rs with
  | nil => intro _; exact ⟨[], rfl⟩
  | cons r rest ih =>
    intro h
    obtain ⟨x, hx⟩ := h r (by simp)
    obtain ⟨l, hl⟩ := ih (fun r hr => h r (List.mem_cons_of_mem _ hr))
    subst hx
    exact ⟨x :: l, by simp [tryJoinAll, hl, Except.map]⟩

/-- Helper: `try_join_all` returns the first error when every member
before it succeeds. -/
theorem tryJoinAll_first_error (A : Type) (e : Error) :
    ∀ (oks : List (Except Error A)) (rest : List (Except Error A)),
      (∀ r ∈ oks, ∃ x, r = .ok x) →
      tryJoinAll A (oks ++ .error e :: rest) = .error e := by
  intro oks
  induction oks with
  | nil => intro rest _; rfl
  | cons r oks' ih =>
    intro rest h
    obtain ⟨x, hx⟩ := h r (by simp)
    subst hx
    simp [tryJoinAll, ih rest (fun r hr => h r (List.mem_cons_of_mem _ hr)), Except.map]

/-- Helper: flattening a list of constant-length lists. -/
theorem flatten_const_length (A B : Type) (f : A → List B) (c : Nat)
    (h : ∀ a, (f a).length = c) :
    ∀ l : List A, ((l.map f).flatten).length = c * l.length := by
  intro l
  induction l with
  | nil => simp
  | cons a rest ih => simp [ih, h a]; ring

/-- Helper: the version-detail stage returns successfully — with a log of
2 requests (single-version mode) or 2·V requests (all-versions mode) on
top of the incoming log — whenever the versions list is nonempty and every
per-version sub-fetch succeeds. -/
theorem versionsStage_ok (srv : ServerData) (krate : CrateResponse) (av : Bool)
    (log0 : List Request) (hv : krate.versions ≠ [])
    (hok : ∀ v ∈ krate.versions, ∃ fv, (full_version srv v).1 = .ok fv) :
    ∃ versions logv, versionsStage srv krate av log0 = .returns (.ok versions) logv ∧
      logv.length = log0.length +
        (if av = false then 2 else 2 * krate.versions.length) := by
  cases av with
  | false =>
    cases hvs : krate.versions with
    | nil => exact absurd hvs hv
    | cons v rest =>
      obtain ⟨fv, hfv⟩ := hok v (by rw [hvs]; simp)
      refine ⟨[fv], log0 ++ (full_version srv v).2, ?_, ?_⟩
      · rw [versionsStage, if_pos rfl, hvs]
        simp only [hfv, Except.map]
      · simp [full_version_log]
  | true =>
    have hall : ∀ r ∈ (krate.versions.map (fun v => full_version srv v)).map Prod.fst,
        ∃ x, r = .ok x := by
      intro r hr
      simp only [List.map_map, List.mem_map] at hr
      obtain ⟨v, hv', hveq⟩ := hr
      obtain ⟨fv, hfv⟩ := hok v hv'
      exact ⟨fv, by rw [← hveq]; exact hfv⟩
    obtain ⟨l, hl⟩ := tryJoinAll_ok FullVersion _ hall
    refine ⟨l, log0 ++
      (((krate.versions.map (fun v => full_version srv v)).map Prod.snd).flatten), ?_, ?_⟩
    · rw [versionsStage]
      simp only [Bool.true_eq_false, if_false, hl]
    · have h2 : ((krate.versions.map (fun v => full_version srv v)).map Prod.snd) =
          krate.versions.map (fun v => (full_version srv v).2) := by
        simp [List.map_map]
      simp only [List.length_append, h2]
      rw [flatten_const_length Version Request (fun v => (full_version srv v).2) 2
        (fun v => by simp [full_version_log])]
      simp only [Bool.true_eq_false, if_false]

/-- Helper: the crate-level join succeeds with the expected request log
when downloads, owners and the reverse-dependency accumulation all
succeed and the versions list is nonempty. -/
theorem joinStage_ok (srv : ServerData) (name : String) (krate : CrateResponse)
    (versions : List FullVersion) (logv : List Request) (fuel : Nat)
    (d : Nat) (ow : Owners) (rdv : ReverseDependencies) (logR : List Request)
    (v0 : Version) (vs : List Version)
    (hd : srv.downloadsResp name = .ok d)
    (ho : srv.ownersResp name = .ok ow)
    (hrd : crate_reverse_dependencies srv name fuel = some (.ok rdv, logR))
    (hvers : krate.versions = v0 :: vs) :
    joinStage srv name krate versions logv fuel =
      .returns (.ok
        { name := krate.crate_data.name
          license := v0.license
          downloads := d
          owners := ow.users
          reverse_dependencies := rdv
          versions := versions })
        (logv ++ [Request.downloads name] ++ [Request.owners name] ++ logR) := by
  rw [joinStage]
  simp only [crate_downloads, crate_owners, hd, ho, hrd, hvers, Except.map]

/-- C1 counterexample: on `demoServer` the crate has one reverse
dependency, so the reverse-dependency accumulation inside `full_crate`
takes 2 page requests (one nonempty page, one empty page), and the
single-version call issues 7 requests in total, not 6. -/
theorem C1_cex :
    requestsOf FullCrate (full_crate demoServer "serde" false 3) =
      some [Request.getCrate "serde", Request.authors "serde" "1.0.0",
        Request.dependencies "serde" "1.0.0", Request.downloads "serde",
        Request.owners "serde", Request.reverseDeps "serde" 100 1,
        Request.reverseDeps "serde" 100 2] ∧
    (requestsOf FullCrate (full_crate demoServer "serde" false 3)).map
        List.length = some 7 ∧
    (7 : Nat) ≠ 6 := by
  refine ⟨rfl, rfl, by decide⟩

/-- C1 (amended): on a server where every sub-fetch succeeds and the first
empty reverse-dependency page is page `k` (`k = 1` exactly when the crate
has no reverse dependencies), a `full_crate` call with `all_versions =
false` issues exactly `5 + k` requests (1 base + 2 version-detail + 1
downloads + 1 owners + k reverse-dependency pages) — which is the claimed
6 exactly when `k = 1` — and a call with `all_versions = true` on a crate
with `V` versions issues exactly `3 + 2·V + k` requests, the claimed
`1 + 2V + 3` exactly when `k = 1`. -/
theorem C1_request_count (srv : ServerData) (name : String)
    (pg : Nat → ReverseDependenciesAsReceived) (k fuel : Nat)
    (krate : CrateResponse)
    (hk : 1 ≤ k) (hfuel : k ≤ fuel)
    (hc : srv.crateResp name = .ok krate) (hv : krate.versions ≠ [])
    (hver : ∀ v ∈ krate.versions,
      (∃ a, srv.authorsResp v.crate_name v.num = .ok a) ∧
      (∃ d, srv.depsResp v.crate_name v.num = .ok d))
    (hdl : ∃ d, srv.downloadsResp name = .ok d)
    (how : ∃ o, srv.ownersResp name = .ok o)
    (hpages : ∀ i, 1 ≤ i → i < k →
      srv.revDepsResp name i = .ok (pg i) ∧ (pg i).dependencies ≠ [])
    (hend : srv.revDepsResp name k = .ok (pg k))
    (hkE : (pg k).dependencies = []) :
    (requestsOf FullCrate (full_crate srv name false fuel)).map List.length =
      some (5 + k) ∧
    (requestsOf FullCrate (full_crate srv name true fuel)).map List.length =
      some (3 + 2 * krate.versions.length + k) := by
  obtain ⟨d, hd⟩ := hdl
  obtain ⟨ow, ho⟩ := how
  have hrd : crate_reverse_dependencies srv name fuel =
      some (.ok
        { dependencies :=
            ((List.range' 1 (k - 1)).map (fun i => (pg i).dependencies)).flatten
          meta := { total := if 1 = k then 0 else (pg (k - 1)).meta.total } },
        (List.range' 1 (k - 1 + 1)).map
          (fun i => Request.reverseDeps name 100 i)) := by
    rw [crate_reverse_dependencies,
      revDepsLoop_spec srv name pg k hpages hend hkE fuel 1
        { dependencies := [], meta := { total := 0 } } (by omega) hk (by omega)]
    rfl
  have hrdlen : ((List.range' 1 (k - 1 + 1)).map
      (fun i => Request.reverseDeps name 100 i)).length = k := by
    simp
    omega
  have hok : ∀ v ∈ krate.versions, ∃ fv, (full_version srv v).1 = .ok fv := by
    intro v hvmem
    exact full_version_ok srv v (hver v hvmem).1 (hver v hvmem).2
  have hkey : ∀ av : Bool,
      ∃ res log, full_crate srv name av fuel = .returns (.ok res) log ∧
        log.length =
          1 + (if av = false then 2 else 2 * krate.versions.length) + 1 + 1 + k := by
    intro av
    obtain ⟨versions, logv, hvs, hlen⟩ :=
      versionsStage_ok srv krate av [Request.getCrate name] hv hok
    cases hkv : krate.versions with
    | nil => exact absurd hkv hv
    | cons v0 vs =>
      refine ⟨{ name := krate.crate_data.name
                license := v0.license
                downloads := d
                owners := ow.users
                reverse_dependencies :=
                  { dependencies :=
                      ((List.range' 1 (k - 1)).map (fun i => (pg i).dependencies)).flatten
                    meta := { total := if 1 = k then 0 else (pg (k - 1)).meta.total } }
                versions := versions },
        logv ++ [Request.downloads name] ++ [Request.owners name] ++
        (List.range' 1 (k - 1 + 1)).map (fun i => Request.reverseDeps name 100 i),
        ?_, ?_⟩
      · rw [full_crate]
        simp only [get_crate, hc, hvs]
        exact joinStage_ok srv name krate versions logv fuel d ow _ _ v0 vs
          hd ho hrd hkv
      · rw [hkv] at hlen
        simp only [List.length_append, hrdlen, List.length_singleton]
        rw [hlen]
        simp only [List.length_singleton]
  constructor
  · obtain ⟨res, log, heq, hlen⟩ := hkey false
    rw [heq]
    simp only [requestsOf, Option.map]
    rw [hlen]
    norm_num
  · obtain ⟨res, log, heq, hlen⟩ := hkey true
    rw [heq]
    simp only [requestsOf, Option.map]
    rw [hlen]
    simp only [Bool.true_eq_false, if_false]
    norm_num
    omega

/-- Witness for C1 (amended) on `demoServer`, whose first empty
reverse-dependency page is page 2. -/
theorem C1_request_count_witness :
    (requestsOf FullCrate (full_crate demoServer "serde" false 4)).map List.length =
      some (5 + 2) ∧
    (requestsOf FullCrate (full_crate demoServer "serde" true 4)).map List.length =
      some (3 + 2 * 1 + 2) := by
  have h := C1_request_count demoServer "serde"
    (fun p => if p = 1 then { dependencies := ["tokio"], meta := { total := 1 } }
              else { dependencies := [], meta := { total := 1 } })
    2 4
    { crate_data := { name := "serde" }
      versions := [{ crate_name := "serde", num := "1.0.0", license := "MIT" }] }
    (by omega) (by omega) (by simp [demoServer]) (by simp)
    (by intro v hvmem
        refine ⟨⟨{ meta := { names := ["alice"] } }, by simp [demoServer]⟩,
          ⟨{ dependencies := ["serde"] }, by simp [demoServer]⟩⟩)
    ⟨7, by simp [demoServer]⟩ ⟨{ users := ["alice"] }, by simp [demoServer]⟩
    (by intro i h1 h2
        have : i = 1 := by omega
        subst this
        constructor <;> simp [demoServer])
    (by simp [demoServer]) (by simp)
  exact h

/-- Helper: in single-version mode, a failing `full_version` on the first
version makes the version stage fail with that error. -/
theorem versionsStage_err_false (srv : ServerData) (krate : CrateResponse)
    (log0 : List Request) (v : Version) (rest : List Version) (e : Error)
    (hvs : krate.versions = v :: rest)
    (hfv : (full_version srv v).1 = .error e) :
    versionsStage srv krate false log0 =
      .returns (.error e) (log0 ++ (full_version srv v).2) := by
  rw [versionsStage, if_pos rfl, hvs]
  simp only [hfv, Except.map]

/-- Helper: in all-versions mode, the first failing `full_version` (all
earlier ones succeeding) makes the version stage fail with that error. -/
theorem versionsStage_err_true (srv : ServerData) (krate : CrateResponse)
    (log0 : List Request) (vs1 : List Version) (v : Version) (vs2 : List Version)
    (e : Error)
    (hvs : krate.versions = vs1 ++ v :: vs2)
    (hok1 : ∀ u ∈ vs1, ∃ fv, (full_version srv u).1 = .ok fv)
    (hfv : (full_version srv v).1 = .error e) :
    ∃ logv, versionsStage srv krate true log0 = .returns (.error e) logv := by
  have hjoin : tryJoinAll FullVersion
      ((krate.versions.map (fun u => full_version srv u)).map Prod.fst) = .error e := by
    rw [List.map_map, hvs, List.map_append, List.map_cons]
    have hfv' : (Prod.fst ∘ fun u => full_version srv u) v = Except.error e := hfv
    rw [hfv']
    refine tryJoinAll_first_error FullVersion e _ _ ?_
    intro r hr
    simp only [List.mem_map, Function.comp] at hr
    obtain ⟨u, hu, hueq⟩ := hr
    obtain ⟨fv, hfv2⟩ := hok1 u hu
    exact ⟨fv, by rw [← hueq]; exact hfv2⟩
  refine ⟨log0 ++
    ((krate.versions.map (fun u => full_version srv u)).map Prod.snd).flatten, ?_⟩
  rw [versionsStage]
  simp only [Bool.true_eq_false, if_false, hjoin]

/-- Helper: a failing version stage becomes the result of `full_crate`. -/
theorem full_crate_vstage_err (srv : ServerData) (name : String) (av : Bool)
    (fuel : Nat) (krate : CrateResponse) (e : Error) (logv : List Request)
    (hc : srv.crateResp name = .ok krate)
    (hvse : versionsStage srv krate av [Request.getCrate name] =
      .returns (.error e) logv) :
    full_crate srv name av fuel = .returns (.error e) logv := by
  rw [full_crate]
  simp only [get_crate, hc, hvse]

/-- Helper: a successful version stage hands `full_crate` over to the
crate-level join. -/
theorem full_crate_to_join (srv : ServerData) (name : String) (av : Bool)
    (fuel : Nat) (krate : CrateResponse) (versions : List FullVersion)
    (logv : List Request)
    (hc : srv.crateResp name = .ok krate)
    (hvse : versionsStage srv krate av [Request.getCrate name] =
      .returns (.ok versions) logv) :
    full_crate srv name av fuel = joinStage srv name krate versions logv fuel := by
  rw [full_crate]
  simp only [get_crate, hc, hvse]

/-- The full request log assembled by the crate-level join. -/
def joinLog (srv : ServerData) (name : String) (logv : List Request)
    (fuel : Nat) : List Request :=
  logv ++ (crate_downloads srv name).2 ++ (crate_owners srv name).2 ++
    (match crate_reverse_dependencies srv name fuel with
     | some r => r.2
     | none => [])

/-- Helper: a failing downloads fetch decides the crate-level join,
whatever the owners and reverse-dependency outcomes. -/
theorem joinStage_dls_err (srv : ServerData) (name : String)
    (krate : CrateResponse) (versions : List FullVersion) (logv : List Request)
    (fuel : Nat) (e : Error)
    (hd : srv.downloadsResp name = .error e) :
    ∃ l, joinStage srv name krate versions logv fuel = .returns (.error e) l := by
  refine ⟨joinLog srv name logv fuel, ?_⟩
  rw [joinStage, joinLog]
  simp only [crate_downloads, crate_owners, hd]

/-- Helper: with downloads succeeding, a failing owners fetch decides the
crate-level join, whatever the reverse-dependency outcome. -/
theorem joinStage_owners_err (srv : ServerData) (name : String)
    (krate : CrateResponse) (versions : List FullVersion) (logv : List Request)
    (fuel : Nat) (d : Nat) (e : Error)
    (hd : srv.downloadsResp name = .ok d)
    (ho : srv.ownersResp name = .error e) :
    ∃ l, joinStage srv name krate versions logv fuel = .returns (.error e) l := by
  refine ⟨joinLog srv name logv fuel, ?_⟩
  rw [joinStage, joinLog]
  simp only [crate_downloads, crate_owners, hd, ho, Except.map]

/-- Helper: with downloads and owners succeeding, a failing
reverse-dependency accumulation decides the crate-level join. -/
theorem joinStage_rd_err (srv : ServerData) (name : String)
    (krate : CrateResponse) (versions : List FullVersion) (logv : List Request)
    (fuel : Nat) (d : Nat) (ow : Owners) (e : Error) (lg : List Request)
    (hd : srv.downloadsResp name = .ok d)
    (ho : srv.ownersResp name = .ok ow)
    (hrd : crate_reverse_dependencies srv name fuel = some (.error e, lg)) :
    ∃ l, joinStage srv name krate versions logv fuel = .returns (.error e) l := by
  refine ⟨joinLog srv name logv fuel, ?_⟩
  rw [joinStage, joinLog]
  simp only [crate_downloads, crate_owners, hd, ho, hrd, Except.map]

/-- C6: every composite fetch is fail-fast: in `full_version`, a failing
authors fetch (or, with authors succeeding, a failing dependencies fetch)
becomes the result of the whole operation; in `full_crate`, a failing
per-version detail (single-version or all-versions mode), or — with the
version stage succeeding — a failing downloads, owners (downloads
succeeding) or reverse-dependency fetch (both succeeding) becomes the
result of the whole call, in that poll order, regardless of what the
sibling sub-fetches would have returned, whose results are discarded. -/
theorem C6_fail_fast :
    (∀ (srv : ServerData) (v : Version) (e : Error),
      srv.authorsResp v.crate_name v.num = .error e →
      (full_version srv v).1 = .error e) ∧
    (∀ (srv : ServerData) (v : Version) (a : AuthorsResponse) (e : Error),
      srv.authorsResp v.crate_name v.num = .ok a →
      srv.depsResp v.crate_name v.num = .error e →
      (full_version srv v).1 = .error e) ∧
    (∀ (srv : ServerData) (name : String) (fuel : Nat) (krate : CrateResponse)
        (v : Version) (rest : List Version) (e : Error),
      srv.crateResp name = .ok krate → krate.versions = v :: rest →
      (full_version srv v).1 = .error e →
      resultOf FullCrate (full_crate srv name false fuel) = some (.error e)) ∧
    (∀ (srv : ServerData) (name : String) (fuel : Nat) (krate : CrateResponse)
        (vs1 : List Version) (v : Version) (vs2 : List Version) (e : Error),
      srv.crateResp name = .ok krate → krate.versions = vs1 ++ v :: vs2 →
      (∀ u ∈ vs1, ∃ fv, (full_version srv u).1 = .ok fv) →
      (full_version srv v).1 = .error e →
      resultOf FullCrate (full_crate srv name true fuel) = some (.error e)) ∧
    (∀ (srv : ServerData) (name : String) (fuel : Nat) (av : Bool)
        (krate : CrateResponse) (e : Error),
      srv.crateResp name = .ok krate → krate.versions ≠ [] →
      (∀ u ∈ krate.versions, ∃ fv, (full_version srv u).1 = .ok fv) →
      srv.downloadsResp name = .error e →
      resultOf FullCrate (full_crate srv name av fuel) = some (.error e)) ∧
    (∀ (srv : ServerData) (name : String) (fuel : Nat) (av : Bool)
        (krate : CrateResponse) (d : Nat) (e : Error),
      srv.crateResp name = .ok krate → krate.versions ≠ [] →
      (∀ u ∈ krate.versions, ∃ fv, (full_version srv u).1 = .ok fv) →
      srv.downloadsResp name = .ok d →
      srv.ownersResp name = .error e →
      resultOf FullCrate (full_crate srv name av fuel) = some (.error e)) ∧
    (∀ (srv : ServerData) (name : String) (fuel : Nat) (av : Bool)
        (krate : CrateResponse) (d : Nat) (ow : Owners) (e : Error)
        (lg : List Request),
      srv.crateResp name = .ok krate → krate.versions ≠ [] →
      (∀ u ∈ krate.versions, ∃ fv, (full_version srv u).1 = .ok fv) →
      srv.downloadsResp name = .ok d →
      srv.ownersResp name = .ok ow →
      crate_reverse_dependencies srv name fuel = some (.error e, lg) →
      resultOf FullCrate (full_crate srv name av fuel) = some (.error e)) := by
  refine ⟨?_, ?_, ?_, ?_, ?_, ?_, ?_⟩
  · intro srv v e ha
    simp [full_version, crate_authors, ha, tryJoin2, Except.map]
  · intro srv v a e ha hdep
    simp [full_version, crate_authors, crate_dependencies, ha, hdep, tryJoin2,
      Except.map]
  · intro srv name fuel krate v rest e hc hvs hfv
    rw [full_crate_vstage_err srv name false fuel krate e _ hc
      (versionsStage_err_false srv krate [Request.getCrate name] v rest e hvs hfv)]
    rfl
  · intro srv name fuel krate vs1 v vs2 e hc hvs hok1 hfv
    obtain ⟨logv, hvse⟩ := versionsStage_err_true srv krate [Request.getCrate name]
      vs1 v vs2 e hvs hok1 hfv
    rw [full_crate_vstage_err srv name true fuel krate e logv hc hvse]
    rfl
  · intro srv name fuel av krate e hc hv hok hd
    obtain ⟨versions, logv, hvse, _⟩ :=
      versionsStage_ok srv krate av [Request.getCrate name] hv hok
    rw [full_crate_to_join srv name av fuel krate versions logv hc hvse]
    obtain ⟨l, hl⟩ := joinStage_dls_err srv name krate versions logv fuel e hd
    rw [hl]
    rfl
  · intro srv name fuel av krate d e hc hv hok hd ho
    obtain ⟨versions, logv, hvse, _⟩ :=
      versionsStage_ok srv krate av [Request.getCrate name] hv hok
    rw [full_crate_to_join srv name av fuel krate versions logv hc hvse]
    obtain ⟨l, hl⟩ := joinStage_owners_err srv name krate versions logv fuel d e hd ho
    rw [hl]
    rfl
  · intro srv name fuel av krate d ow e lg hc hv hok hd ho hrd
    obtain ⟨versions, logv, hvse, _⟩ :=
      versionsStage_ok srv krate av [Request.getCrate name] hv hok
    rw [full_crate_to_join srv name av fuel krate versions logv hc hvse]
    obtain ⟨l, hl⟩ := joinStage_rd_err srv name krate versions logv fuel d ow e lg
      hd ho hrd
    rw [hl]
    rfl

/-- A server whose authors endpoint fails. -/
def authorsFailServer : ServerData :=
  { demoServer with authorsResp := fun _ _ => .error (.api "down") }

/-- A server whose dependencies endpoint fails. -/
def depsFailServer : ServerData :=
  { demoServer with depsResp := fun _ _ => .error (.api "down") }

/-- A server whose downloads endpoint fails. -/
def dlsFailServer : ServerData :=
  { demoServer with downloadsResp := fun _ => .error (.api "down") }

/-- A server whose owners endpoint fails. -/
def ownersFailServer : ServerData :=
  { demoServer with ownersResp := fun _ => .error (.api "down") }

/-- A server whose reverse-dependency endpoint fails. -/
def rdFailServer : ServerData :=
  { demoServer with revDepsResp := fun _ _ => .error (.api "down") }

/-- Witness for C6 at concrete failing servers: one conjunct per failing
sub-fetch position, siblings succeeding. -/
theorem C6_fail_fast_witness :
    (full_version authorsFailServer
      { crate_name := "serde", num := "1.0.0", license := "MIT" }).1 =
        .error (.api "down") ∧
    (full_version depsFailServer
      { crate_name := "serde", num := "1.0.0", license := "MIT" }).1 =
        .error (.api "down") ∧
    resultOf FullCrate (full_crate authorsFailServer "serde" false 3) =
      some (.error (.api "down")) ∧
    resultOf FullCrate (full_crate depsFailServer "serde" true 3) =
      some (.error (.api "down")) ∧
    resultOf FullCrate (full_crate dlsFailServer "serde" false 3) =
      some (.error (.api "down")) ∧
    resultOf FullCrate (full_crate ownersFailServer "serde" true 3) =
      some (.error (.api "down")) ∧
    resultOf FullCrate (full_crate rdFailServer "serde" false 3) =
      some (.error (.api "down")) := by
  have hver : ∀ u ∈ [demoVersion],
      ∃ fv, (full_version dlsFailServer u).1 = .ok fv := by
    intro u hu
    simp only [List.mem_singleton] at hu
    subst hu
    exact ⟨_, rfl⟩
  have hver2 : ∀ u ∈ [demoVersion],
      ∃ fv, (full_version ownersFailServer u).1 = .ok fv := by
    intro u hu
    simp only [List.mem_singleton] at hu
    subst hu
    exact ⟨_, rfl⟩
  have hver3 : ∀ u ∈ [demoVersion],
      ∃ fv, (full_version rdFailServer u).1 = .ok fv := by
    intro u hu
    simp only [List.mem_singleton] at hu
    subst hu
    exact ⟨_, rfl⟩
  refine ⟨C6_fail_fast.1 authorsFailServer _ _ rfl,
    C6_fail_fast.2.1 depsFailServer _ { meta := { names := ["alice"] } } _ rfl rfl,
    C6_fail_fast.2.2.1 authorsFailServer "serde" 3 _ _ [] _ rfl rfl ?_,
    C6_fail_fast.2.2.2.1 depsFailServer "serde" 3 _ [] _ [] _ rfl rfl
      (by intro u hu; simp at hu) ?_,
    C6_fail_fast.2.2.2.2.1 dlsFailServer "serde" 3 false _ _ rfl
      (by simp [demoServer, dlsFailServer]) hver rfl,
    C6_fail_fast.2.2.2.2.2.1 ownersFailServer "serde" 3 true _ 7 _ rfl
      (by simp [demoServer, ownersFailServer]) hver2 rfl rfl,
    C6_fail_fast.2.2.2.2.2.2 rdFailServer "serde" 3 false _ 7
      { users := ["alice"] } _ [Request.reverseDeps "serde" 100 1] rfl
      (by simp [demoServer, rdFailServer]) hver3 rfl rfl rfl⟩
  · rfl
  · rfl

/-- Helper: the version stage can only panic when the versions list is
empty. -/
theorem versionsStage_no_panic (srv : ServerData) (krate : CrateResponse)
    (av : Bool) (log0 : List Request) (hv : krate.versions ≠ []) :
    ∀ l, versionsStage srv krate av log0 ≠ .panics l := by
  intro l
  cases av with
  | false =>
    cases hkv : krate.versions with
    | nil => exact absurd hkv hv
    | cons v vs =>
      rw [versionsStage, if_pos rfl, hkv]
      simp
  | true =>
    rw [versionsStage]
    simp

/-- Helper: the crate-level join can only panic when the versions list is
empty. -/
theorem joinStage_no_panic (srv : ServerData) (name : String)
    (krate : CrateResponse) (versions : List FullVersion) (logv : List Request)
    (fuel : Nat) (hv : krate.versions ≠ []) :
    ∀ l, joinStage srv name krate versions logv fuel ≠ .panics l := by
  intro l
  rw [joinStage]
  simp only [crate_downloads, crate_owners]
  cases hdls : srv.downloadsResp name with
  | error e => simp
  | ok d =>
    cases how : srv.ownersResp name with
    | error e => simp [Except.map]
    | ok ow =>
      simp only [Except.map]
      cases hrd : crate_reverse_dependencies srv name fuel with
      | none => simp
      | some r =>
        obtain ⟨r1, r2⟩ := r
        cases r1 with
        | error e => simp
        | ok rdv =>
          cases hkv : krate.versions with
          | nil => exact absurd hkv hv
          | cons v0 vs => simp

/-- C10: `full_crate` unconditionally indexes `krate.versions[0]` — in
single-version mode to build the version detail, and in the composition
closure of every mode to read the license — so it is total only under the
precondition that the base crate response lists at least one version: with
an empty versions list the single-version call panics immediately after
the base lookup, and an otherwise fully successful all-versions call
panics in the composition closure; with a nonempty versions list (for
every successful base lookup) no call panics. -/
theorem C10_versions_indexing :
    (∀ (srv : ServerData) (name : String) (fuel : Nat) (krate : CrateResponse),
      srv.crateResp name = .ok krate → krate.versions = [] →
      full_crate srv name false fuel = .panics [Request.getCrate name]) ∧
    (∀ (srv : ServerData) (name : String) (fuel : Nat) (krate : CrateResponse)
        (d : Nat) (ow : Owners) (rdv : ReverseDependencies) (lg : List Request),
      srv.crateResp name = .ok krate → krate.versions = [] →
      srv.downloadsResp name = .ok d → srv.ownersResp name = .ok ow →
      crate_reverse_dependencies srv name fuel = some (.ok rdv, lg) →
      ∃ l, full_crate srv name true fuel = .panics l) ∧
    (∀ (srv : ServerData) (name : String) (av : Bool) (fuel : Nat),
      (∀ krate, srv.crateResp name = .ok krate → krate.versions ≠ []) →
      ∀ l, full_crate srv name av fuel ≠ .panics l) := by
  refine ⟨?_, ?_, ?_⟩
  · intro srv name fuel krate hc hvs
    rw [full_crate]
    simp only [get_crate, hc]
    rw [versionsStage, if_pos rfl, hvs]
  · intro srv name fuel krate d ow rdv lg hc hvs hd ho hrd
    have hvse : versionsStage srv krate true [Request.getCrate name] =
        .returns (.ok []) ([Request.getCrate name] ++ []) := by
      rw [versionsStage]
      simp only [Bool.true_eq_false, if_false, hvs]
      rfl
    rw [full_crate_to_join srv name true fuel krate [] _ hc hvse]
    refine ⟨joinLog srv name ([Request.getCrate name] ++ []) fuel, ?_⟩
    rw [joinStage, joinLog]
    simp only [crate_downloads, crate_owners, hd, ho, hrd, hvs, Except.map]
  · intro srv name av fuel hne l
    rw [full_crate]
    simp only [get_crate]
    cases hc : srv.crateResp name with
    | error e => simp
    | ok krate =>
      have hv := hne krate hc
      show (match versionsStage srv krate av [Request.getCrate name] with
        | RunOutcome.panics l => RunOutcome.panics l
        | RunOutcome.hangs => RunOutcome.hangs
        | RunOutcome.returns (Except.error e) logv =>
            RunOutcome.returns (Except.error e) logv
        | RunOutcome.returns (Except.ok versions) logv =>
            joinStage srv name krate versions logv fuel) ≠ RunOutcome.panics l
      cases hvs : versionsStage srv krate av [Request.getCrate name] with
      | panics l2 => exact absurd hvs (versionsStage_no_panic srv krate av _ hv l2)
      | hangs => simp
      | returns r logv =>
        cases r with
        | error e => simp
        | ok versions =>
          exact joinStage_no_panic srv name krate versions logv fuel hv l

/-- A server whose base crate lookup succeeds with an empty versions
list. -/
def emptyVersionsServer : ServerData :=
  { demoServer with
    crateResp := fun n => .ok { crate_data := { name := n }, versions := [] } }

/-- Witness for C10: on `emptyVersionsServer` both modes panic (all other
sub-fetches succeeding), and on `demoServer` (one version) no panic
occurs. -/
theorem C10_versions_indexing_witness :
    full_crate emptyVersionsServer "serde" false 3 =
      .panics [Request.getCrate "serde"] ∧
    (∃ l, full_crate emptyVersionsServer "serde" true 3 = .panics l) ∧
    full_crate demoServer "serde" false 3 ≠
      .panics [Request.getCrate "serde"] := by
  refine ⟨C10_versions_indexing.1 emptyVersionsServer "serde" 3 _ rfl rfl,
    C10_versions_indexing.2.1 emptyVersionsServer "serde" 3 _ 7
      { users := ["alice"] }
      { dependencies := ["tokio"], meta := { total := 1 } }
      [Request.reverseDeps "serde" 100 1, Request.reverseDeps "serde" 100 2]
      rfl rfl rfl rfl ?_,
    C10_versions_indexing.2.2 demoServer "serde" false 3 ?_ _⟩
  · rfl
  · intro krate hk
    simp only [demoServer] at hk
    cases hk
    simp

/-- Modelled from the spec: a crate list entry (only an identifying name
is needed by the stream claims). -/
structure Crate where
  name : String
deriving DecidableEq, Repr

/-- Modelled from the spec: the decoded response of the paged `crates`
endpoint, reduced to the page's crate list. -/
structure CratesResponse where
  crates : List Crate
deriving DecidableEq, Repr

/-- Modelled from the spec: the crates query; only the 1-based page number
is read and written by `CrateStream::poll_next`. -/
structure CratesQuery where
  page : Nat
deriving DecidableEq, Repr

/-- The state of a `CrateStream` (async_client.rs lines 21-40): the query
whose page counter advances, the `closed` flag, the buffered items
(`VecDeque<Crate>`), and the in-flight page fetch, represented by the
query it was started with (`None` when no fetch is in flight). -/
structure CrateStream where
  filter : CratesQuery
  closed : Bool
  items : List Crate
  nextPageFetch : Option CratesQuery
deriving DecidableEq, Repr

/-- `CrateStream::new` (lines 31-39). -/
def CrateStream.new (filter : CratesQuery) : CrateStream :=
  { filter := filter, closed := false, items := [], nextPageFetch := none }

/-- Result of polling the in-flight page fetch. -/
inductive FetchPoll where
  | pending
  | ready (r : Except Error CratesResponse)
deriving Repr

deriving instance DecidableEq for Except

/-- What one `poll_next` call reports: `pending` models
`Poll::Pending`, `finished` models `Poll::Ready(None)` (end of
sequence), `item r` models `Poll::Ready(Some(r))`. -/
inductive StreamPoll where
  | pending
  | finished
  | item (r : Except Error Crate)
deriving DecidableEq, Repr

/-- Shallow embedding of `CrateStream::poll_next` (lines 45-96),
parameterised by the outcome `fp` of polling the in-flight fetch (consulted
only when a fetch is in flight).  In source order:
1. if `closed`, report end of sequence;
2. if the buffer is nonempty, pop and return the front item;
3. if a fetch is in flight, poll it: still pending → put it back and
   report pending; empty page → close and report end; nonempty page →
   return the first item and buffer the rest; error → close and return the
   error as an item;
4. otherwise start a fetch for the current page, increment the page
   counter, and report pending (the source also asserts the fresh future
   is pending on its first poll and self-wakes the task). -/
def pollNext (s : CrateStream) (fp : FetchPoll) : CrateStream × StreamPoll :=
  if s.closed then (s, .finished)
  else
    match s.items with
    | k :: rest => ({ s with items := rest }, .item (.ok k))
    | [] =>
      match s.nextPageFetch with
      | some _ =>
        match fp with
        | .pending => (s, .pending)
        | .ready (.ok page) =>
          match page.crates with
          | [] => ({ s with nextPageFetch := none, closed := true }, .finished)
          | next :: restItems =>
            ({ s with nextPageFetch := none, items := restItems },
             .item (.ok next))
        | .ready (.error e) =>
          ({ s with nextPageFetch := none, closed := true }, .item (.error e))
      | none =>
        ({ s with filter := { page := s.filter.page + 1 },
                  nextPageFetch := some s.filter },
         .pending)

/-- Drive a `CrateStream` against a server that resolves every in-flight
fetch on its next poll (the page number requested is the one captured in
the fetch).  Returns the emitted items in order together with the final
stream state; the fuel bounds the number of polls. -/
def drain (server : Nat → Except Error CratesResponse) :
    Nat → CrateStream → List (Except Error Crate) × CrateStream
  | 0, s => ([], s)
  | fuel + 1, s =>
    let fp := match s.nextPageFetch with
      | some q => FetchPoll.ready (server q.page)
      | none => FetchPoll.pending
    match pollNext s fp with
    | (s2, .finished) => ([], s2)
    | (s2, .item x) =>
      let r := drain server fuel s2
      (x :: r.1, r.2)
    | (s2, .pending) => drain server fuel s2

/-- Fuel sufficient to drain a page list: one poll to start each fetch
plus one poll per item. -/
def pagesFuel (pages : List (List Crate)) : Nat :=
  pages.foldr (fun l n => l.length + 1 + n) 0

/-- Helper: with no fetch in flight, the stream first serves its buffer,
one item per poll, in order. -/
theorem drain_buffer (server : Nat → Except Error CratesResponse) :
    ∀ (l : List Crate) (f : Nat) (q : CratesQuery),
      drain server (l.length + f)
        { filter := q, closed := false, items := l, nextPageFetch := none } =
      ((l.map Except.ok) ++ (drain server f (CrateStream.new q)).1,
       (drain server f (CrateStream.new q)).2) := by
  intro l
  induction l with
  | nil =>
    intro f q
    simp [CrateStream.new]
  | cons x xs ih =>
    intro f q
    have harith : (x :: xs).length + f = (xs.length + f) + 1 := by
      simp
      omega
    rw [harith, drain]
    simp only [pollNext, Bool.false_eq_true, if_false]
    rw [ih f q]
    simp

/-- Helper: full characterisation of the stream against a server with a
list of nonempty pages (served at consecutive page numbers starting at the
stream's initial page) followed by an empty page: the stream emits exactly
the pages' items in order, performs one fetch per page plus one final
fetch that observes the empty page, and closes. -/
theorem drain_pages (server : Nat → Except Error CratesResponse) :
    ∀ (pages : List (List Crate)) (p extra : Nat),
      (∀ l ∈ pages, l ≠ []) →
      (∀ i, (h : i < pages.length) →
        server (p + i) = .ok { crates := pages.get ⟨i, h⟩ }) →
      server (p + pages.length) = .ok { crates := [] } →
      drain server (pagesFuel pages + 2 + extra) (CrateStream.new { page := p }) =
        (pages.flatten.map Except.ok,
         { filter := { page := p + pages.length + 1 }, closed := true,
           items := [], nextPageFetch := none }) := by
  intro pages
  induction pages with
  | nil =>
    intro p extra _ _ h3
    simp only [List.length_nil, Nat.add_zero] at h3
    have harith : pagesFuel [] + 2 + extra = (extra + 1) + 1 := by
      simp [pagesFuel]
      omega
    rw [harith, drain]
    simp only [pollNext, Bool.false_eq_true, if_false, CrateStream.new]
    rw [drain]
    simp only [pollNext, Bool.false_eq_true, if_false, h3]
    simp
  | cons l rest ih =>
    intro p extra h1 h2 h3
    obtain ⟨x, xs, hl⟩ : ∃ x xs, l = x :: xs := by
      cases hcase : l with
      | nil => exact absurd hcase (h1 l (by simp))
      | cons a b => exact ⟨a, b, rfl⟩
    subst hl
    have h1' : ∀ l2 ∈ rest, l2 ≠ [] := fun l2 hl2 => h1 l2 (List.mem_cons_of_mem _ hl2)
    have h2' : ∀ i, (h : i < rest.length) →
        server (p + 1 + i) = .ok { crates := rest.get ⟨i, h⟩ } := by
      intro i h
      have hlt : i + 1 < ((x :: xs) :: rest).length := by
        simp only [List.length_cons]
        omega
      have heq := h2 (i + 1) hlt
      have hadd : p + (i + 1) = p + 1 + i := by omega
      rw [hadd] at heq
      simpa using heq
    have h3' : server (p + 1 + rest.length) = .ok { crates := [] } := by
      have hadd : p + ((x :: xs) :: rest).length = p + 1 + rest.length := by
        simp only [List.length_cons]
        omega
      rw [hadd] at h3
      exact h3
    have h20 : server p = .ok { crates := x :: xs } := by
      have hlt : 0 < ((x :: xs) :: rest).length := by simp
      have heq := h2 0 hlt
      simpa using heq
    have harith : pagesFuel ((x :: xs) :: rest) + 2 + extra =
        ((xs.length + (pagesFuel rest + 2 + extra)) + 1) + 1 := by
      simp [pagesFuel]
      omega
    rw [harith, drain]
    simp only [pollNext, Bool.false_eq_true, if_false, CrateStream.new]
    rw [drain]
    simp only [pollNext, Bool.false_eq_true, if_false, h20]
    rw [drain_buffer server xs (pagesFuel rest + 2 + extra) { page := p + 1 }]
    rw [ih (p + 1) extra h1' h2' h3']
    have hpage : p + ((x :: xs) :: rest).length + 1 = p + 1 + rest.length + 1 := by
      simp only [List.length_cons]
      omega
    rw [hpage]
    simp

/-- C4: against any server serving a list of nonempty pages followed by an
empty page, the paginated crate stream yields exactly the pages' items, in
server order within and across pages, closes upon the one extra fetch that
observes the empty page (final page counter = initial + number of nonempty
pages + 1, one increment per fetch), and a fetched page with at least one
item — in particular one with fewer items than the requested page size —
never closes the stream. -/
theorem C4_stream_yields (server : Nat → Except Error CratesResponse)
    (pages : List (List Crate)) (p extra : Nat)
    (hne : ∀ l ∈ pages, l ≠ [])
    (hpages : ∀ i, (h : i < pages.length) →
      server (p + i) = .ok { crates := pages.get ⟨i, h⟩ })
    (hend : server (p + pages.length) = .ok { crates := [] }) :
    ((drain server (pagesFuel pages + 2 + extra) (CrateStream.new { page := p })).1 =
        pages.flatten.map Except.ok ∧
     (drain server (pagesFuel pages + 2 + extra) (CrateStream.new { page := p })).2 =
        { filter := { page := p + pages.length + 1 }, closed := true,
          items := [], nextPageFetch := none }) ∧
    (∀ (s : CrateStream) (c : Crate) (cs : List Crate),
      s.closed = false →
      (pollNext s (.ready (.ok { crates := c :: cs }))).1.closed = false) := by
  constructor
  · rw [drain_pages server pages p extra hne hpages hend]
    exact ⟨rfl, rfl⟩
  · intro s c cs h
    obtain ⟨filt, closed, its, nf⟩ := s
    simp only at h
    subst h
    cases its <;> cases nf <;> simp [pollNext]

/-- The two-page server used as C4's witness. -/
def c4server : Nat → Except Error CratesResponse :=
  fun n =>
    if n = 1 then .ok { crates := [{ name := "a" }, { name := "b" }] }
    else if n = 2 then .ok { crates := [{ name := "c" }] }
    else .ok { crates := [] }

/-- The page contents served by `c4server`. -/
def c4pages : List (List Crate) :=
  [[{ name := "a" }, { name := "b" }], [{ name := "c" }]]

/-- Witness for C4: two nonempty pages (sizes 2 and 1) then an empty page,
starting at page 1. -/
theorem C4_stream_yields_witness :
    ((drain c4server (pagesFuel c4pages + 2 + 0) (CrateStream.new { page := 1 })).1 =
        c4pages.flatten.map Except.ok ∧
     (drain c4server (pagesFuel c4pages + 2 + 0) (CrateStream.new { page := 1 })).2 =
        { filter := { page := 1 + c4pages.length + 1 }, closed := true,
          items := [], nextPageFetch := none }) ∧
    (pollNext
      { filter := { page := 3 }, closed := false, items := [],
        nextPageFetch := some { page := 2 } }
      (.ready (.ok { crates := [{ name := "c" }] }))).1.closed = false := by
  have h := C4_stream_yields c4server c4pages 1 0 (by decide)
    (by intro i h
        have h2 : i < 2 := by simpa [c4pages] using h
        interval_cases i <;> rfl)
    (by rfl)
  exact ⟨h.1, h.2 _ { name := "c" } [] rfl⟩

/-- C8: when the in-flight page fetch completes with an error, the stream
returns that error as an item and transitions to Closed in the same step
(the fetch slot also emptied); and Closed is terminal: every poll of a
closed stream reports end-of-sequence and leaves the state unchanged, so
the error is the single final item. -/
theorem C8_error_terminal :
    (∀ (s : CrateStream) (q : CratesQuery) (e : Error),
      s.closed = false → s.items = [] → s.nextPageFetch = some q →
      pollNext s (.ready (.error e)) =
        ({ s with nextPageFetch := none, closed := true }, .item (.error e))) ∧
    (∀ (s : CrateStream) (fp : FetchPoll), s.closed = true →
      pollNext s fp = (s, .finished)) := by
  constructor
  · intro s q e h1 h2 h3
    obtain ⟨filt, closed, its, nf⟩ := s
    simp only at h1 h2 h3
    subst h1
    subst h2
    subst h3
    simp [pollNext]
  · intro s fp h
    simp [pollNext, h]

/-- Witness for C8: a concrete waiting stream whose fetch fails, then a
poll of the resulting closed stream. -/
theorem C8_error_terminal_witness :
    pollNext
      { filter := { page := 2 }, closed := false, items := [],
        nextPageFetch := some { page := 1 } }
      (.ready (.error (.api "oops"))) =
      ({ filter := { page := 2 }, closed := true, items := [],
         nextPageFetch := none }, .item (.error (.api "oops"))) ∧
    pollNext
      { filter := { page := 2 }, closed := true, items := [],
        nextPageFetch := none } (.ready (.ok { crates := [{ name := "d" }] })) =
      ({ filter := { page := 2 }, closed := true, items := [],
         nextPageFetch := none }, .finished) :=
  ⟨C8_error_terminal.1
      { filter := { page := 2 }, closed := false, items := [],
        nextPageFetch := some { page := 1 } }
      { page := 1 } (.api "oops") rfl rfl rfl,
   C8_error_terminal.2
      { filter := { page := 2 }, closed := true, items := [],
        nextPageFetch := none }
      (.ready (.ok { crates := [{ name := "d" }] })) rfl⟩
